import Mathlib

/-!
Verification of the nest-backend authentication/user service.

This file shallowly embeds the data model and the operations of the
repository (AuthService, UserService, JwtStrategy, and the Prisma-backed
user store) as pure Lean functions with explicit state passing, and proves
the specification claims about them.

Conventions of the embedding:
* The database is a list of user rows plus an autoincrement counter.
  A boolean fault-injection flag `updateFailure` models a store-level
  failure (e.g. lost connectivity) occurring on write calls, so that the
  error-propagation behaviour of the services can be stated.
* JWT tokens are structures carrying the claim payload, the issue time,
  the absolute expiry and the signing secret; string equality of encoded
  tokens becomes structural equality (two signings with identical payload,
  expiry and issue second yield the identical encoded string, as with the
  real library).
* bcrypt is modelled as an idealized deterministic one-way function:
  compare succeeds exactly on the hashed plaintext.
* Fallible calls return `Except Err _`; thrown framework exceptions are
  `Err` values.
-/

set_option maxRecDepth 8000

namespace NestBackend

/-- JWT claim payload `{ email, sub }` as built by AuthService. -/
structure Claim where
  email : String
  sub : Nat
  deriving DecidableEq, Repr

/-- Shallow model of a signed JWT string: payload, issue time (seconds),
absolute expiry, and the signing secret standing in for the signature. -/
structure Token where
  claim : Claim
  iat : Nat
  exp : Nat
  secret : String
  deriving DecidableEq, Repr

/-- The single signing secret (JWT_SECRET env var or the default). -/
def jwtSecret : String := "default-secret-key"

/-- Access-token lifetime: 15 minutes, in seconds. -/
def accessTtl : Nat := 15 * 60

/-- Refresh-token lifetime: 7 days, in seconds. -/
def refreshTtl : Nat := 7 * 24 * 60 * 60

/-- `jwtService.sign(payload, \x7b expiresIn \x7d)` at clock value `now`. -/
def sign (payload : Claim) (ttl : Nat) (now : Nat) : Token :=
  { claim := payload, iat := now, exp := now + ttl, secret := jwtSecret }

/-- Error values: thrown exceptions of the embedded services.
`unauthorized` is NestJS `UnauthorizedException`, `conflict` is
`ConflictException` (never thrown by this code base, present so claims
about it are statable), `storeError` is an error escaping the Prisma
store, `tokenInvalid` is a JWT library verification error. -/
inductive Err where
  | unauthorized (msg : String)
  | conflict (msg : String)
  | storeError (msg : String)
  | tokenInvalid (msg : String)
  deriving DecidableEq, Repr

/-- `jwtService.verify`: fails on wrong signature or expiry, else yields
the embedded claim. -/
def verify (now : Nat) (t : Token) : Except Err Claim :=
  if t.secret ≠ jwtSecret then .error (.tokenInvalid "invalid signature")
  else if t.exp ≤ now then .error (.tokenInvalid "jwt expired")
  else .ok t.claim

/-- Idealized bcrypt.hash at work factor 10: deterministic injective
one-way encoding of the plaintext. -/
def bcryptHash (pw : String) : String := "$2b$10$" ++ pw

/-- Idealized bcrypt.compare: true iff the stored value is the hash of
the plaintext. -/
def bcryptCompare (pw : String) (hashed : String) : Bool :=
  hashed == bcryptHash pw

/-- A row of the `users` table (prisma/schema.prisma). -/
structure UserRow where
  id : Nat
  email : String
  name : String
  password : String
  age : Option Nat
  refreshToken : Option Token
  createdAt : Nat
  updatedAt : Nat
  deriving DecidableEq, Repr

/-- The user store: rows, the autoincrement sequence, and a
fault-injection flag modelling a store failure on write calls. -/
structure Db where
  rows : List UserRow
  nextId : Nat
  updateFailure : Bool
  deriving DecidableEq, Repr

/-- `prisma.user.findUnique(\x7b where: \x7b email \x7d \x7d)`. -/
def findByEmail (db : Db) (email : String) : Option UserRow :=
  db.rows.find? (fun u => u.email == email)

/-- `prisma.user.findUnique(\x7b where: \x7b id \x7d \x7d)`. -/
def findById (db : Db) (id : Nat) : Option UserRow :=
  db.rows.find? (fun u => u.id == id)

/-- `prisma.user.update(\x7b where: \x7b id \x7d, data \x7d)`: throws a store error
when the write fails (injected fault) or the row is absent (P2025);
otherwise rewrites the row through `f` and bumps `updatedAt`. -/
def prismaUpdate (db : Db) (now : Nat) (id : Nat) (f : UserRow → UserRow) :
    Except Err Db :=
  if db.updateFailure then .error (.storeError "store connection failure")
  else if (findById db id).isSome then
    .ok { db with
          rows := db.rows.map fun u =>
            if u.id == id then { f u with updatedAt := now } else u }
  else .error (.storeError "P2025: record to update not found")

/-- `prisma.user.delete(\x7b where: \x7b id \x7d \x7d)`: throws P2025 when the row is
absent. -/
def prismaDelete (db : Db) (id : Nat) : Except Err Db :=
  if (findById db id).isSome then
    .ok { db with rows := db.rows.filter (fun u => u.id != id) }
  else .error (.storeError "P2025: record to delete not found")

/-- `prisma.user.create(\x7b data \x7d)`: enforces the unique constraint on
email and assigns the next id from the sequence. -/
def prismaCreate (db : Db) (now : Nat) (email name password : String)
    (age : Option Nat) : Except Err (UserRow × Db) :=
  if (findByEmail db email).isSome then
    .error (.storeError "unique constraint violation on email")
  else
    let u : UserRow :=
      { id := db.nextId, email := email, name := name, password := password,
        age := age, refreshToken := none, createdAt := now, updatedAt := now }
    .ok (u, { db with rows := db.rows ++ [u], nextId := db.nextId + 1 })

/-- A value in a serialized response object. -/
inductive Value where
  | nat : Nat → Value
  | str : String → Value
  | optNat : Option Nat → Value
  deriving DecidableEq, Repr

/-- `PublicUser = Omit<User, 'password' | 'refreshToken'>`: the field
subset selected by every UserService query. -/
structure PublicUser where
  id : Nat
  email : String
  name : String
  age : Option Nat
  createdAt : Nat
  updatedAt : Nat
  deriving DecidableEq, Repr

/-- The `select` projection used by UserService: exactly the fields
marked `true` there (id, email, name, age, createdAt, updatedAt);
`password: false` and `refreshToken: false` are excluded. -/
def toPublic (u : UserRow) : PublicUser :=
  { id := u.id, email := u.email, name := u.name, age := u.age,
    createdAt := u.createdAt, updatedAt := u.updatedAt }

/-- Serialization of a PublicUser response object as key/value pairs. -/
def PublicUser.toKV (p : PublicUser) : List (String × Value) :=
  [("id", .nat p.id), ("email", .str p.email), ("name", .str p.name),
   ("age", .optNat p.age), ("createdAt", .nat p.createdAt),
   ("updatedAt", .nat p.updatedAt)]

/-- `CreateUserDto` from user.service.ts. -/
structure CreateUserDto where
  email : String
  name : String
  password : String
  age : Option Nat
  deriving DecidableEq, Repr

/-- A `Partial<CreateUserDto>` update body: each field optionally
present. -/
structure UpdateDto where
  email : Option String
  name : Option String
  password : Option String
  age : Option Nat
  deriving DecidableEq, Repr

/-- Merging an update body into a row, field by field. -/
def applyUpdate (dto : UpdateDto) (u : UserRow) : UserRow :=
  { u with
    email := dto.email.getD u.email,
    name := dto.name.getD u.name,
    password := dto.password.getD u.password,
    age := match dto.age with | some a => some a | none => u.age }

/-- `UserService.findAll`: every row through the public projection. -/
def userFindAll (db : Db) : List PublicUser :=
  db.rows.map toPublic

/-- `UserService.findOne(id)`: `PublicUser | null`. -/
def userFindOne (db : Db) (id : Nat) : Option PublicUser :=
  (findById db id).map toPublic

/-- `UserService.create(data)`. -/
def userCreate (db : Db) (now : Nat) (dto : CreateUserDto) :
    Except Err (PublicUser × Db) :=
  match prismaCreate db now dto.email dto.name dto.password dto.age with
  | .error e => .error e
  | .ok (u, db') => .ok (toPublic u, db')

/-- `UserService.update(id, data)`: unique-email constraint checked
store-side, then the merged row is written back and projected. -/
def userUpdate (db : Db) (now : Nat) (id : Nat) (dto : UpdateDto) :
    Except Err (PublicUser × Db) :=
  if dto.email.elim false
      (fun e => db.rows.any (fun u => u.email == e && u.id != id)) then
    .error (.storeError "unique constraint violation on email")
  else
    match prismaUpdate db now id (applyUpdate dto) with
    | .error e => .error e
    | .ok db' =>
      match findById db' id with
      | some u => .ok (toPublic u, db')
      | none => .error (.storeError "row vanished")

/-- `UserService.remove(id)`: a bare prisma delete, no error handling. -/
def userRemove (db : Db) (id : Nat) : Except Err Db :=
  prismaDelete db id

/-- `UserService.updateRefreshToken(userId, refreshToken)`. -/
def updateRefreshToken (db : Db) (now : Nat) (userId : Nat)
    (tok : Option Token) : Except Err Db :=
  prismaUpdate db now userId (fun u => { u with refreshToken := tok })

/-- `LoginDto`. -/
structure LoginDto where
  email : String
  password : String
  deriving DecidableEq, Repr

/-- `RegisterDto`. -/
structure RegisterDto where
  email : String
  password : String
  name : String
  age : Option Nat
  deriving DecidableEq, Repr

/-- The `user` object inside an auth response. -/
structure AuthUser where
  id : Nat
  email : String
  name : String
  deriving DecidableEq, Repr

/-- `AuthResponse`: both tokens plus the public user triple. -/
structure AuthResponse where
  access_token : Token
  refresh_token : Token
  user : AuthUser
  deriving DecidableEq, Repr

/-- `TokenResponse`: an access/refresh pair. -/
structure TokenPair where
  access_token : Token
  refresh_token : Token
  deriving DecidableEq, Repr

/-- `AuthService.validateUser`: load by email, then bcrypt-compare. -/
def validateUser (db : Db) (email password : String) : Option UserRow :=
  match findByEmail db email with
  | some u => if bcryptCompare password u.password then some u else none
  | none => none

/-- `AuthService.login` (and `loginWithCookies`, whose underlying logic
is identical): validate credentials, sign both tokens, persist the
refresh token, return the response. No try/catch: store errors from the
persist escape unmodified. -/
def login (db : Db) (now : Nat) (dto : LoginDto) :
    Except Err (AuthResponse × Db) :=
  match validateUser db dto.email dto.password with
  | none => .error (.unauthorized "Invalid credentials")
  | some user =>
    let payload : Claim := { email := user.email, sub := user.id }
    let access_token := sign payload accessTtl now
    let refresh_token := sign payload refreshTtl now
    match updateRefreshToken db now user.id (some refresh_token) with
    | .error e => .error e
    | .ok db' =>
      .ok ({ access_token := access_token, refresh_token := refresh_token,
             user := { id := user.id, email := user.email,
                       name := user.name } }, db')

/-- `AuthService.register` (and `registerWithCookies`): duplicate email
throws `UnauthorizedException('User already exists')`; otherwise hash,
create, sign both tokens, persist the refresh token. -/
def register (db : Db) (now : Nat) (dto : RegisterDto) :
    Except Err (AuthResponse × Db) :=
  match findByEmail db dto.email with
  | some _ => .error (.unauthorized "User already exists")
  | none =>
    let hashedPassword := bcryptHash dto.password
    match userCreate db now
        { email := dto.email, name := dto.name,
          password := hashedPassword, age := dto.age } with
    | .error e => .error e
    | .ok (user, db1) =>
      let payload : Claim := { email := user.email, sub := user.id }
      let access_token := sign payload accessTtl now
      let refresh_token := sign payload refreshTtl now
      match updateRefreshToken db1 now user.id (some refresh_token) with
      | .error e => .error e
      | .ok db2 =>
        .ok ({ access_token := access_token, refresh_token := refresh_token,
               user := { id := user.id, email := user.email,
                         name := user.name } }, db2)

/-- The body of the `try` block of `AuthService.refreshTokens`: verify
the token, resolve the user BY THE EMAIL CLAIM, compare the stored
refresh token, then rotate. -/
def refreshTokensBody (db : Db) (now : Nat) (refreshToken : Token) :
    Except Err (TokenPair × Db) :=
  match verify now refreshToken with
  | .error e => .error e
  | .ok payload =>
    match findByEmail db payload.email with
    | none => .error (.unauthorized "Invalid refresh token")
    | some user =>
      if user.refreshToken ≠ some refreshToken then
        .error (.unauthorized "Invalid refresh token")
      else
        let newPayload : Claim := { email := user.email, sub := user.id }
        let access_token := sign newPayload accessTtl now
        let refresh_token := sign newPayload refreshTtl now
        match updateRefreshToken db now user.id (some refresh_token) with
        | .error e => .error e
        | .ok db' =>
          .ok ({ access_token := access_token,
                 refresh_token := refresh_token }, db')

/-- `AuthService.refreshTokens` (and `refreshTokensWithCookies`): the
whole body is wrapped in try/catch, and EVERY failure is rethrown as
`UnauthorizedException('Invalid refresh token')`. -/
def refreshTokens (db : Db) (now : Nat) (refreshToken : Token) :
    Except Err (TokenPair × Db) :=
  match refreshTokensBody db now refreshToken with
  | .ok r => .ok r
  | .error _ => .error (.unauthorized "Invalid refresh token")

/-- `AuthService.logout(userId)`: a bare store write setting the stored
refresh token to null; no catch, so store errors escape unmodified. -/
def logout (db : Db) (now : Nat) (userId : Nat) : Except Err Db :=
  updateRefreshToken db now userId none

/-- The identity a passing gate attaches to the request. -/
structure GateUser where
  userId : Nat
  email : String
  deriving DecidableEq, Repr

/-- `JwtStrategy.validate(payload)`: looks the subject up in the store
(via the public projection) and rejects with a bare
`UnauthorizedException` when absent; otherwise resolves the identity
from the token claim. -/
def jwtStrategyValidate (db : Db) (payload : Claim) : Except Err GateUser :=
  match userFindOne db payload.sub with
  | none => .error (.unauthorized "Unauthorized")
  | some _ => .ok { userId := payload.sub, email := payload.email }

/-- The Access Control Gate: passport verifies signature and expiry
(failures become 401), then `JwtStrategy.validate` runs. -/
def gateAuthenticate (db : Db) (now : Nat) (t : Token) :
    Except Err GateUser :=
  match verify now t with
  | .error _ => .error (.unauthorized "Unauthorized")
  | .ok payload => jwtStrategyValidate db payload

/-- The state-changing operations of the HTTP surface, each carrying the
clock value at which it runs. -/
inductive Op where
  | opRegister (now : Nat) (dto : RegisterDto)
  | opLogin (now : Nat) (dto : LoginDto)
  | opRefresh (now : Nat) (t : Token)
  | opLogout (now : Nat) (userId : Nat)
  | opCreate (now : Nat) (dto : CreateUserDto)
  | opUpdate (now : Nat) (id : Nat) (dto : UpdateDto)
  | opRemove (id : Nat)
  deriving Repr

/-- The store state after a fallible call returning a value and a state:
unchanged when the call threw. -/
def dbAfter {α : Type} (db : Db) (r : Except Err (α × Db)) : Db :=
  match r with
  | .ok (_, db') => db'
  | .error _ => db

/-- The store state after a fallible call returning only a state. -/
def dbAfterUnit (db : Db) (r : Except Err Db) : Db :=
  match r with
  | .ok db' => db'
  | .error _ => db

/-- One step of the system: run the operation, keep its resulting store
state (unchanged on a thrown error). -/
def applyOp (db : Db) : Op → Db
  | .opRegister now dto => dbAfter db (register db now dto)
  | .opLogin now dto => dbAfter db (login db now dto)
  | .opRefresh now t => dbAfter db (refreshTokens db now t)
  | .opLogout now uid => dbAfterUnit db (logout db now uid)
  | .opCreate now dto => dbAfter db (userCreate db now dto)
  | .opUpdate now id dto => dbAfter db (userUpdate db now id dto)
  | .opRemove id => dbAfterUnit db (userRemove db id)

/-- The initial store: empty table, sequence at 1, store healthy. -/
def initDb : Db := { rows := [], nextId := 1, updateFailure := false }

/-- Running a sequence of operations from a store state. -/
def runOps (db : Db) (ops : List Op) : Db :=
  ops.foldl applyOp db

/-- The multiset of refresh tokens the store currently holds for a given
user id (across all rows carrying that id). -/
def storedTokens (db : Db) (userId : Nat) : List Token :=
  db.rows.filterMap (fun u => if u.id == userId then u.refreshToken else none)

/-- Store well-formedness: primary-key uniqueness of `id`, and the
autoincrement sequence strictly ahead of every existing id. -/
def DbWF (db : Db) : Prop :=
  (db.rows.map UserRow.id).Nodup ∧ ∀ u ∈ db.rows, u.id < db.nextId

/-- The mapped row rewrite a successful prisma update performs. -/
def updRow (now id : Nat) (f : UserRow → UserRow) (u : UserRow) : UserRow :=
  if u.id == id then { f u with updatedAt := now } else u

/-- The row rewrite performed by a successful `updateRefreshToken`. -/
def setRefresh (now uid : Nat) (tok : Option Token) : UserRow → UserRow :=
  updRow now uid (fun w => { w with refreshToken := tok })

/-- Whether a thrown error is a Conflict error. -/
def isConflict {α : Type} : Except Err α → Bool
  | .error (.conflict _) => true
  | _ => false

/-- The spec acceptance condition for Refresh, transcribed from the
spec: the presented token passes verification AND the user row resolved
from it stores exactly the presented token (absent user counts as
rejection). -/
def refreshAccepted (db : Db) (now : Nat) (t : Token) : Bool :=
  match verify now t with
  | .error _ => false
  | .ok payload =>
    match findByEmail db payload.email with
    | none => false
    | some user => user.refreshToken == some t

/-- The spec rejection condition for Login, transcribed from the spec:
no user with the given email, or the password fails verification
against the stored hash. -/
def loginRejects (db : Db) (dto : LoginDto) : Bool :=
  match findByEmail db dto.email with
  | none => true
  | some u => !(bcryptCompare dto.password u.password)

/-- What a successful Refresh guarantees: a new pair is returned, the
resolved user row now stores the new refresh token (overwrite), and —
provided the presented token was not issued at this very second —
presenting the pre-refresh token again afterwards fails with
Unauthorized at every clock value (single-use rotation). -/
def refreshRotates (db : Db) (now : Nat) (t : Token) : Prop :=
  ∃ pair db', refreshTokens db now t = .ok (pair, db')
    ∧ (∀ u, findByEmail db t.claim.email = some u →
        (findById db' u.id).map UserRow.refreshToken
          = some (some pair.refresh_token))
    ∧ (t.iat ≠ now → ∀ now2,
        refreshTokens db' now2 t
          = .error (.unauthorized "Invalid refresh token"))

/-- What a successful Login guarantees: a response whose two tokens the
Token Verifier accepts, with the new refresh token persisted onto the
user's row. -/
def loginSucceeds (db : Db) (now : Nat) (dto : LoginDto) : Prop :=
  ∃ r db', login db now dto = .ok (r, db')
    ∧ (∃ c, verify now r.access_token = .ok c)
    ∧ (∃ c, verify now r.refresh_token = .ok c)
    ∧ (findById db' r.user.id).map UserRow.refreshToken
        = some (some r.refresh_token)

/-- What Logout guarantees at a healthy store for an existing user id:
it succeeds, the stored refresh token is null afterwards regardless of
its prior value, it is idempotent, and a Refresh presented with the
pre-logout token fails afterwards. -/
def logoutSpec (db : Db) (now uid : Nat) : Prop :=
  ∃ db', logout db now uid = .ok db'
    ∧ (findById db' uid).map UserRow.refreshToken = some none
    ∧ logout db' now uid = .ok db'
    ∧ (∀ (t : Token) (u : UserRow) (now2 : Nat),
        findByEmail db t.claim.email = some u → u.id = uid →
        u.refreshToken = some t →
        refreshTokens db' now2 t
          = .error (.unauthorized "Invalid refresh token"))

/-- No password and no refreshToken key in a serialized response. -/
def noSensitiveKeys (p : PublicUser) : Prop :=
  ∀ kv ∈ p.toKV, kv.1 ≠ "password" ∧ kv.1 ≠ "refreshToken"

/-- A sample refresh token issued to the sample user. -/
def sampleToken : Token :=
  { claim := { email := "a@x.com", sub := 1 }, iat := 0, exp := refreshTtl,
    secret := jwtSecret }

/-- A sample registered user row holding `sampleToken`. -/
def sampleUser : UserRow :=
  { id := 1, email := "a@x.com", name := "A", password := bcryptHash "p1",
    age := none, refreshToken := some sampleToken, createdAt := 0,
    updatedAt := 0 }

/-- A healthy store holding the sample user. -/
def sampleDb : Db := { rows := [sampleUser], nextId := 2, updateFailure := false }

/-- The same store with the write-failure fault injected. -/
def sampleDbDown : Db :=
  { rows := [sampleUser], nextId := 2, updateFailure := true }

/-- A registration body reusing the sample user's email. -/
def dupRegisterDto : RegisterDto :=
  { email := "a@x.com", password := "p2", name := "B", age := none }

/-- The sample user's correct credentials. -/
def goodLogin : LoginDto := { email := "a@x.com", password := "p1" }

/-- An update body touching nothing. -/
def emptyUpdate : UpdateDto :=
  { email := none, name := none, password := none, age := none }

/-- An access token whose subject id is absent from the sample store. -/
def ghostToken : Token :=
  { claim := { email := "ghost@x.com", sub := 2 }, iat := 0, exp := accessTtl,
    secret := jwtSecret }

/-- A refresh token carrying the sample user's former email. -/
def oldEmailToken : Token :=
  { claim := { email := "old@x.com", sub := 1 }, iat := 0, exp := refreshTtl,
    secret := jwtSecret }

/-- The sample user after an email change, still storing the token that
embeds the former email. -/
def renamedUser : UserRow :=
  { id := 1, email := "new@x.com", name := "A", password := bcryptHash "p1",
    age := none, refreshToken := some oldEmailToken, createdAt := 0,
    updatedAt := 0 }

/-- A healthy store holding only the renamed user. -/
def renamedDb : Db :=
  { rows := [renamedUser], nextId := 2, updateFailure := false }

/-! ## Helper lemmas -/

theorem list_map_self {α : Type} (f : α → α) :
    ∀ l : List α, (∀ a ∈ l, f a = a) → l.map f = l := by
  intro l
  induction l with
  | nil => intro _; rfl
  | cons a l ih =>
    intro h
    simp only [List.map_cons]
    rw [h a (by simp), ih (fun b hb => h b (by simp [hb]))]

theorem find?_map_comm {α : Type} (f : α → α) (p : α → Bool)
    (hp : ∀ a, p (f a) = p a) :
    ∀ l : List α, (l.map f).find? p = (l.find? p).map f := by
  intro l
  induction l with
  | nil => rfl
  | cons a l ih =>
    simp only [List.map_cons, List.find?_cons, hp a]
    cases h : p a
    · simpa using ih
    · rfl

theorem filterMap_nil_of_none {α β : Type} (f : α → Option β) :
    ∀ l : List α, (∀ a ∈ l, f a = none) → l.filterMap f = [] := by
  intro l
  induction l with
  | nil => intro _; rfl
  | cons a l ih =>
    intro h
    simp only [List.filterMap_cons, h a (by simp)]
    exact ih (fun b hb => h b (by simp [hb]))

/-- A successful prisma update happens exactly in the healthy-store,
row-present case, and rewrites the rows pointwise. -/
theorem prismaUpdate_ok_dest {db : Db} {now id : Nat} {f : UserRow → UserRow}
    {db' : Db} (h : prismaUpdate db now id f = .ok db') :
    db.updateFailure = false ∧ (findById db id).isSome = true ∧
      db' = { db with rows := db.rows.map (updRow now id f) } := by
  unfold prismaUpdate at h
  cases hflag : db.updateFailure with
  | true => rw [hflag, if_pos rfl] at h; exact Except.noConfusion h
  | false =>
    rw [hflag, if_neg Bool.false_ne_true] at h
    cases hm : (findById db id).isSome with
    | false => rw [hm, if_neg Bool.false_ne_true] at h; exact Except.noConfusion h
    | true =>
      rw [hm, if_pos rfl] at h
      exact ⟨rfl, rfl, (Except.ok.inj h).symm⟩

/-- Converse direction: in the healthy-store, row-present case the
update succeeds with the pointwise rewrite. -/
theorem prismaUpdate_eq_ok (db : Db) (now id : Nat) (f : UserRow → UserRow)
    (hflag : db.updateFailure = false) (hm : (findById db id).isSome = true) :
    prismaUpdate db now id f
      = .ok { db with rows := db.rows.map (updRow now id f) } := by
  unfold prismaUpdate
  rw [hflag, if_neg Bool.false_ne_true, hm, if_pos rfl]
  rfl

/-- A successful prisma delete filters the row out. -/
theorem prismaDelete_ok_dest {db : Db} {id : Nat} {db' : Db}
    (h : prismaDelete db id = .ok db') :
    db' = { db with rows := db.rows.filter (fun u => u.id != id) } := by
  unfold prismaDelete at h
  cases hm : (findById db id).isSome with
  | false => rw [hm, if_neg Bool.false_ne_true] at h; exact Except.noConfusion h
  | true => rw [hm, if_pos rfl] at h; exact (Except.ok.inj h).symm

/-- A successful prisma create appends a fresh row carrying the next
sequence value. -/
theorem prismaCreate_ok_dest {db : Db} {now : Nat}
    {email name password : String} {age : Option Nat} {u : UserRow} {db' : Db}
    (h : prismaCreate db now email name password age = .ok (u, db')) :
    u = { id := db.nextId, email := email, name := name, password := password,
          age := age, refreshToken := none, createdAt := now,
          updatedAt := now } ∧
      db' = { db with rows := db.rows ++ [u], nextId := db.nextId + 1 } := by
  unfold prismaCreate at h
  cases hm : (findByEmail db email).isSome with
  | true => rw [hm, if_pos rfl] at h; exact Except.noConfusion h
  | false =>
    rw [hm, if_neg Bool.false_ne_true] at h
    have h2 := Except.ok.inj h
    have hu : u = { id := db.nextId, email := email, name := name,
                    password := password, age := age, refreshToken := none,
                    createdAt := now, updatedAt := now } :=
      (congrArg Prod.fst h2).symm
    refine ⟨hu, ?_⟩
    have hdb := (congrArg Prod.snd h2).symm
    rw [hu]
    exact hdb

theorem map_congr_on {α β : Type} (f g : α → β) :
    ∀ l : List α, (∀ a ∈ l, f a = g a) → l.map f = l.map g := by
  intro l
  induction l with
  | nil => intro _; rfl
  | cons a l ih =>
    intro h
    simp only [List.map_cons]
    rw [h a (by simp), ih (fun b hb => h b (by simp [hb]))]

/-- `updRow` never changes the primary key. -/
theorem updRow_id (now id : Nat) (f : UserRow → UserRow)
    (hid : ∀ u, (f u).id = u.id) (u : UserRow) :
    (updRow now id f u).id = u.id := by
  unfold updRow
  by_cases h : (u.id == id) = true
  · rw [if_pos h]; exact hid u
  · rw [if_neg h]

/-- Store well-formedness is preserved by a successful id-preserving
prisma update. -/
theorem DbWF_update {db db' : Db} {now id : Nat} {f : UserRow → UserRow}
    (h : prismaUpdate db now id f = .ok db')
    (hid : ∀ u, (f u).id = u.id) (hwf : DbWF db) : DbWF db' := by
  obtain ⟨-, -, hdb⟩ := prismaUpdate_ok_dest h
  subst hdb
  obtain ⟨hnodup, hbound⟩ := hwf
  constructor
  · have : (db.rows.map (updRow now id f)).map UserRow.id
        = db.rows.map UserRow.id := by
      rw [List.map_map]
      exact map_congr_on _ _ _ (fun a _ => updRow_id now id f hid a)
    simpa [this] using hnodup
  · intro u hu
    obtain ⟨v, hv, rfl⟩ := List.mem_map.mp hu
    have : (updRow now id f v).id = v.id := updRow_id now id f hid v
    simpa [this] using hbound v hv

/-- Store well-formedness is preserved by a successful prisma delete. -/
theorem DbWF_delete {db db' : Db} {id : Nat}
    (h : prismaDelete db id = .ok db') (hwf : DbWF db) : DbWF db' := by
  have hdb := prismaDelete_ok_dest h
  subst hdb
  obtain ⟨hnodup, hbound⟩ := hwf
  constructor
  · exact hnodup.sublist ((List.filter_sublist _).map UserRow.id)
  · intro u hu
    exact hbound u (List.mem_of_mem_filter hu)

/-- Store well-formedness is preserved by a successful prisma create. -/
theorem DbWF_create {db db' : Db} {now : Nat}
    {email name password : String} {age : Option Nat} {u : UserRow}
    (h : prismaCreate db now email name password age = .ok (u, db'))
    (hwf : DbWF db) : DbWF db' := by
  obtain ⟨hu, hdb⟩ := prismaCreate_ok_dest h
  subst hdb
  obtain ⟨hnodup, hbound⟩ := hwf
  constructor
  · simp only [List.map_append, List.map_cons, List.map_nil]
    rw [List.nodup_append]
    refine ⟨hnodup, List.nodup_singleton _, ?_⟩
    intro x hx hx1
    have hxlt : x < db.nextId := by
      obtain ⟨v, hv, rfl⟩ := List.mem_map.mp hx
      exact hbound v hv
    have : x = u.id := by simpa using hx1
    rw [hu] at this
    simp at this
    omega
  · intro v hv
    rcases List.mem_append.mp hv with hvl | hvr
    · have := hbound v hvl
      simp only []
      omega
    · have : v = u := by simpa using hvr
      rw [this, hu]
      simp

/-! ## Well-formedness is preserved by every operation -/

theorem userCreate_ok_WF {db db' : Db} {now : Nat} {dto : CreateUserDto}
    {p : PublicUser} (h : userCreate db now dto = .ok (p, db'))
    (hwf : DbWF db) : DbWF db' := by
  unfold userCreate at h
  cases hc : prismaCreate db now dto.email dto.name dto.password dto.age with
  | error e => rw [hc] at h; exact Except.noConfusion h
  | ok q =>
    obtain ⟨u, db1⟩ := q
    rw [hc] at h
    dsimp only [] at h
    have : db1 = db' := congrArg Prod.snd (Except.ok.inj h)
    subst this
    exact DbWF_create hc hwf

theorem logout_ok_WF {db db' : Db} {now uid : Nat}
    (h : logout db now uid = .ok db') (hwf : DbWF db) : DbWF db' :=
  DbWF_update h (fun _ => rfl) hwf

theorem login_ok_WF {db db' : Db} {now : Nat} {dto : LoginDto}
    {r : AuthResponse} (h : login db now dto = .ok (r, db'))
    (hwf : DbWF db) : DbWF db' := by
  unfold login at h
  cases hv : validateUser db dto.email dto.password with
  | none => rw [hv] at h; exact Except.noConfusion h
  | some user =>
    rw [hv] at h
    dsimp only [] at h
    cases hu : updateRefreshToken db now user.id
        (some (sign { email := user.email, sub := user.id } refreshTtl now)) with
    | error e => rw [hu] at h; exact Except.noConfusion h
    | ok db2 =>
      rw [hu] at h
      have : db2 = db' := congrArg Prod.snd (Except.ok.inj h)
      subst this
      exact DbWF_update hu (fun _ => rfl) hwf

theorem register_ok_WF {db db' : Db} {now : Nat} {dto : RegisterDto}
    {r : AuthResponse} (h : register db now dto = .ok (r, db'))
    (hwf : DbWF db) : DbWF db' := by
  unfold register at h
  cases hfe : findByEmail db dto.email with
  | some u => rw [hfe] at h; exact Except.noConfusion h
  | none =>
    rw [hfe] at h
    dsimp only [] at h
    cases hc : userCreate db now
        { email := dto.email, name := dto.name,
          password := bcryptHash dto.password, age := dto.age } with
    | error e => rw [hc] at h; exact Except.noConfusion h
    | ok q =>
      obtain ⟨user, db1⟩ := q
      rw [hc] at h
      dsimp only [] at h
      cases hu : updateRefreshToken db1 now user.id
          (some (sign { email := user.email, sub := user.id }
            refreshTtl now)) with
      | error e => rw [hu] at h; exact Except.noConfusion h
      | ok db2 =>
        rw [hu] at h
        have : db2 = db' := congrArg Prod.snd (Except.ok.inj h)
        subst this
        exact DbWF_update hu (fun _ => rfl) (userCreate_ok_WF hc hwf)

theorem refreshTokensBody_ok_WF {db db' : Db} {now : Nat} {t : Token}
    {p : TokenPair} (h : refreshTokensBody db now t = .ok (p, db'))
    (hwf : DbWF db) : DbWF db' := by
  unfold refreshTokensBody at h
  cases hv : verify now t with
  | error e => rw [hv] at h; exact Except.noConfusion h
  | ok payload =>
    rw [hv] at h
    dsimp only [] at h
    cases hfe : findByEmail db payload.email with
    | none => rw [hfe] at h; exact Except.noConfusion h
    | some user =>
      rw [hfe] at h
      dsimp only [] at h
      by_cases hne : user.refreshToken ≠ some t
      · rw [if_pos hne] at h; exact Except.noConfusion h
      · rw [if_neg hne] at h
        cases hu : updateRefreshToken db now user.id
            (some (sign { email := user.email, sub := user.id }
              refreshTtl now)) with
        | error e => rw [hu] at h; exact Except.noConfusion h
        | ok db2 =>
          rw [hu] at h
          have : db2 = db' := congrArg Prod.snd (Except.ok.inj h)
          subst this
          exact DbWF_update hu (fun _ => rfl) hwf

theorem refreshTokens_ok_WF {db db' : Db} {now : Nat} {t : Token}
    {p : TokenPair} (h : refreshTokens db now t = .ok (p, db'))
    (hwf : DbWF db) : DbWF db' := by
  unfold refreshTokens at h
  cases hb : refreshTokensBody db now t with
  | error e => rw [hb] at h; exact Except.noConfusion h
  | ok q =>
    obtain ⟨p2, db2⟩ := q
    rw [hb] at h
    dsimp only [] at h
    have : db2 = db' := congrArg Prod.snd (Except.ok.inj h)
    subst this
    exact refreshTokensBody_ok_WF hb hwf

theorem userUpdate_ok_WF {db db' : Db} {now id : Nat} {dto : UpdateDto}
    {p : PublicUser} (h : userUpdate db now id dto = .ok (p, db'))
    (hwf : DbWF db) : DbWF db' := by
  unfold userUpdate at h
  by_cases hcol : (dto.email.elim false
      (fun e => db.rows.any (fun u => u.email == e && u.id != id))) = true
  · rw [if_pos hcol] at h; exact Except.noConfusion h
  · rw [if_neg hcol] at h
    cases hu : prismaUpdate db now id (applyUpdate dto) with
    | error e => rw [hu] at h; exact Except.noConfusion h
    | ok db1 =>
      rw [hu] at h
      dsimp only [] at h
      cases hf : findById db1 id with
      | none => rw [hf] at h; exact Except.noConfusion h
      | some u =>
        rw [hf] at h
        dsimp only [] at h
        have : db1 = db' := congrArg Prod.snd (Except.ok.inj h)
        subst this
        exact DbWF_update hu (fun _ => rfl) hwf

theorem userRemove_ok_WF {db db' : Db} {id : Nat}
    (h : userRemove db id = .ok db') (hwf : DbWF db) : DbWF db' :=
  DbWF_delete h hwf

/-- Every operation of the system preserves store well-formedness. -/
theorem DbWF_applyOp (db : Db) (op : Op) (hwf : DbWF db) :
    DbWF (applyOp db op) := by
  cases op with
  | opRegister now dto =>
    simp only [applyOp, dbAfter]
    cases h : register db now dto with
    | error e => exact hwf
    | ok q => obtain ⟨r, db'⟩ := q; exact register_ok_WF h hwf
  | opLogin now dto =>
    simp only [applyOp, dbAfter]
    cases h : login db now dto with
    | error e => exact hwf
    | ok q => obtain ⟨r, db'⟩ := q; exact login_ok_WF h hwf
  | opRefresh now t =>
    simp only [applyOp, dbAfter]
    cases h : refreshTokens db now t with
    | error e => exact hwf
    | ok q => obtain ⟨r, db'⟩ := q; exact refreshTokens_ok_WF h hwf
  | opLogout now uid =>
    simp only [applyOp, dbAfterUnit]
    cases h : logout db now uid with
    | error e => exact hwf
    | ok db' => exact logout_ok_WF h hwf
  | opCreate now dto =>
    simp only [applyOp, dbAfter]
    cases h : userCreate db now dto with
    | error e => exact hwf
    | ok q => obtain ⟨r, db'⟩ := q; exact userCreate_ok_WF h hwf
  | opUpdate now id dto =>
    simp only [applyOp, dbAfter]
    cases h : userUpdate db now id dto with
    | error e => exact hwf
    | ok q => obtain ⟨r, db'⟩ := q; exact userUpdate_ok_WF h hwf
  | opRemove id =>
    simp only [applyOp, dbAfterUnit]
    cases h : userRemove db id with
    | error e => exact hwf
    | ok db' => exact userRemove_ok_WF h hwf

theorem DbWF_runOps : ∀ (ops : List Op) (db : Db), DbWF db →
    DbWF (runOps db ops) := by
  intro ops
  induction ops with
  | nil => intro db h; exact h
  | cons op ops ih =>
    intro db h
    simp only [runOps, List.foldl_cons]
    exact ih (applyOp db op) (DbWF_applyOp db op h)

theorem storedTokens_len_of_nodup (uid : Nat) :
    ∀ l : List UserRow, (l.map UserRow.id).Nodup →
      (l.filterMap
        (fun u => if u.id == uid then u.refreshToken else none)).length ≤ 1 := by
  intro l
  induction l with
  | nil => intro _; simp
  | cons a l ih =>
    intro h
    rw [List.map_cons, List.nodup_cons] at h
    obtain ⟨hnot, hnodup⟩ := h
    by_cases ha : (a.id == uid) = true
    · have haid : a.id = uid := by simpa using ha
      have hrest : l.filterMap
          (fun u => if u.id == uid then u.refreshToken else none) = [] := by
        apply filterMap_nil_of_none
        intro b hb
        have hbid : ¬((b.id == uid) = true) := by
          intro hbeq
          have : b.id = uid := by simpa using hbeq
          exact hnot (by
            rw [haid, ← this]
            exact List.mem_map.mpr ⟨b, hb, rfl⟩)
        rw [if_neg hbid]
      simp only [List.filterMap_cons]
      rw [if_pos ha]
      cases hrt : a.refreshToken with
      | none => dsimp only []; rw [hrest]; simp
      | some t => dsimp only []; rw [hrest]; simp
    · simp only [List.filterMap_cons]
      rw [if_neg ha]
      exact ih hnodup

/-- In a well-formed store every user id has at most one stored refresh
token. -/
theorem DbWF_storedTokens_le_one {db : Db} (hwf : DbWF db) (uid : Nat) :
    (storedTokens db uid).length ≤ 1 :=
  storedTokens_len_of_nodup uid db.rows hwf.1

/-! ## Token and lookup lemmas -/

/-- A successful verification yields the embedded claim of a token
signed with the shared secret and not yet expired. -/
theorem verify_ok_dest {now : Nat} {t : Token} {c : Claim}
    (h : verify now t = .ok c) :
    c = t.claim ∧ t.secret = jwtSecret ∧ now < t.exp := by
  unfold verify at h
  by_cases h1 : t.secret ≠ jwtSecret
  · rw [if_pos h1] at h; exact Except.noConfusion h
  · rw [if_neg h1] at h
    by_cases h2 : t.exp ≤ now
    · rw [if_pos h2] at h; exact Except.noConfusion h
    · rw [if_neg h2] at h
      exact ⟨(Except.ok.inj h).symm, not_not.mp h1, by omega⟩

/-- A freshly signed token verifies for its whole positive lifetime. -/
theorem verify_sign (payload : Claim) (ttl now : Nat) (h : 0 < ttl) :
    verify now (sign payload ttl now) = .ok payload := by
  unfold verify sign
  dsimp only []
  rw [if_neg (by exact not_not.mpr rfl), if_neg (by omega)]

/-- Lookup by email commutes with an email-preserving row rewrite. -/
theorem findByEmail_map (db : Db) (g : UserRow → UserRow)
    (hg : ∀ u, (g u).email = u.email) (e : String) :
    findByEmail { db with rows := db.rows.map g } e
      = (findByEmail db e).map g := by
  unfold findByEmail
  exact find?_map_comm g (fun u => u.email == e) (fun a => by simp [hg a]) db.rows

/-- Lookup by id commutes with an id-preserving row rewrite. -/
theorem findById_map (db : Db) (g : UserRow → UserRow)
    (hg : ∀ u, (g u).id = u.id) (i : Nat) :
    findById { db with rows := db.rows.map g } i
      = (findById db i).map g := by
  unfold findById
  exact find?_map_comm g (fun u => u.id == i) (fun a => by simp [hg a]) db.rows

/-- `updRow` preserves the email whenever the payload rewrite does. -/
theorem updRow_email (now id : Nat) (f : UserRow → UserRow)
    (hf : ∀ u, (f u).email = u.email) (u : UserRow) :
    (updRow now id f u).email = u.email := by
  unfold updRow
  by_cases h : (u.id == id) = true
  · rw [if_pos h]; exact hf u
  · rw [if_neg h]

/-- A row found by id satisfies the id predicate, so `updRow` rewrites
it with the payload function. -/
theorem updRow_of_found {db : Db} {i : Nat} {w : UserRow}
    (hw : findById db i = some w) (now : Nat) (f : UserRow → UserRow) :
    updRow now i f w = { f w with updatedAt := now } := by
  have hw' : db.rows.find? (fun u => u.id == i) = some w := hw
  have hpw := List.find?_some hw'
  unfold updRow
  rw [if_pos hpw]

/-- A member row makes lookup by its id succeed. -/
theorem findById_isSome_of_mem {db : Db} {u : UserRow} (hu : u ∈ db.rows) :
    (findById db u.id).isSome = true := by
  unfold findById
  rw [List.find?_isSome]
  exact ⟨u, hu, by simp⟩

/-- The catch-all of `refreshTokens` turns every body failure into the
Unauthorized rethrow. -/
theorem refreshTokens_of_body_err {db : Db} {now : Nat} {t : Token} {e : Err}
    (h : refreshTokensBody db now t = .error e) :
    refreshTokens db now t = .error (.unauthorized "Invalid refresh token") := by
  unfold refreshTokens
  rw [h]

/-- A non-throwing body passes through the catch unchanged. -/
theorem refreshTokens_of_body_ok {db : Db} {now : Nat} {t : Token}
    {r : TokenPair × Db} (h : refreshTokensBody db now t = .ok r) :
    refreshTokens db now t = .ok r := by
  unfold refreshTokens
  rw [h]

/-- Every error `refreshTokens` returns is the Unauthorized rethrow. -/
theorem refreshTokens_err_dest {db : Db} {now : Nat} {t : Token} {e : Err}
    (h : refreshTokens db now t = .error e) :
    e = .unauthorized "Invalid refresh token" := by
  unfold refreshTokens at h
  cases hb : refreshTokensBody db now t with
  | error e2 => rw [hb] at h; exact (Except.error.inj h).symm
  | ok q => rw [hb] at h; exact Except.noConfusion h

/-! ## Claim theorems -/

theorem toKV_no_sensitive (p : PublicUser) : noSensitiveKeys p := by
  intro kv hkv
  simp only [PublicUser.toKV, List.mem_cons, List.not_mem_nil, or_false]
    at hkv
  rcases hkv with rfl | rfl | rfl | rfl | rfl | rfl <;>
    refine ⟨fun hcon => ?_, fun hcon => ?_⟩ <;> simp at hcon

/-- Claim C1, counterexample: at a store already holding the sample
user, registering the same email yields an Unauthorized error — not a
Conflict error as the claim states. -/
theorem claim1_counterexample :
    register sampleDb 5 dupRegisterDto
        = .error (.unauthorized "User already exists")
      ∧ isConflict (register sampleDb 5 dupRegisterDto) = false :=
  ⟨rfl, rfl⟩

/-- Claim C1 (amended): when the email of a registration request
already belongs to an existing user, Register fails with
Unauthorized('User already exists') — not with a Conflict error — and
the store, including the previously registered user's record, is left
unchanged. -/
theorem claim1_register_duplicate_unauthorized (db : Db) (now : Nat)
    (dto : RegisterDto) (u : UserRow)
    (h : findByEmail db dto.email = some u) :
    register db now dto = .error (.unauthorized "User already exists")
      ∧ isConflict (register db now dto) = false
      ∧ applyOp db (.opRegister now dto) = db := by
  have hr : register db now dto
      = .error (.unauthorized "User already exists") := by
    unfold register
    rw [h]
  refine ⟨hr, ?_, ?_⟩
  · rw [hr]
    rfl
  · simp only [applyOp, dbAfter]
    rw [hr]

theorem claim1_witness :
    findByEmail sampleDb dupRegisterDto.email = some sampleUser
      ∧ (register sampleDb 5 dupRegisterDto
            = .error (.unauthorized "User already exists")
          ∧ isConflict (register sampleDb 5 dupRegisterDto) = false
          ∧ applyOp sampleDb (.opRegister 5 dupRegisterDto) = sampleDb) :=
  ⟨rfl, claim1_register_duplicate_unauthorized sampleDb 5 dupRegisterDto
    sampleUser rfl⟩

/-- Claim C4: for every user state and every id, the results of the
User Resource Handler operations list, get and update carry neither a
password field nor a refreshToken field. -/
theorem claim4_projections_exclude_sensitive (db : Db) (now id : Nat)
    (dto : UpdateDto) :
    (∀ p ∈ userFindAll db, noSensitiveKeys p)
      ∧ (∀ p, userFindOne db id = some p → noSensitiveKeys p)
      ∧ (∀ p db', userUpdate db now id dto = .ok (p, db') →
          noSensitiveKeys p) :=
  ⟨fun p _ => toKV_no_sensitive p, fun p _ => toKV_no_sensitive p,
    fun p _ _ => toKV_no_sensitive p⟩

theorem claim4_witness :
    userFindOne sampleDb 1 = some (toPublic sampleUser)
      ∧ noSensitiveKeys (toPublic sampleUser) :=
  ⟨rfl, (claim4_projections_exclude_sensitive sampleDb 0 1 emptyUpdate).2.1
    (toPublic sampleUser) rfl⟩

/-- Claim C5: over every state reachable from the initial store by any
sequence of operations, each user id holds at most one refresh token —
Register, Login and Refresh overwrite the single refreshToken slot and
Logout nulls it; nothing ever appends a second live token. -/
theorem claim5_at_most_one_refresh_token (ops : List Op) (uid : Nat) :
    (storedTokens (runOps initDb ops) uid).length ≤ 1 :=
  DbWF_storedTokens_le_one
    (DbWF_runOps ops initDb
      ⟨List.nodup_nil, fun u hu => absurd hu (List.not_mem_nil u)⟩) uid

/-- Claim C9: for an id absent from the store, get returns null rather
than raising, while remove raises the store-level P2025 error rather
than silently succeeding or reporting a domain NotFound. -/
theorem claim9_read_null_delete_throws (db : Db) (i : Nat)
    (h : findById db i = none) :
    userFindOne db i = none
      ∧ userRemove db i
          = .error (.storeError "P2025: record to delete not found") := by
  constructor
  · unfold userFindOne
    rw [h]
    rfl
  · unfold userRemove prismaDelete
    rw [h]
    rfl

theorem claim9_witness :
    findById sampleDb 2 = none
      ∧ (userFindOne sampleDb 2 = none
          ∧ userRemove sampleDb 2
              = .error (.storeError "P2025: record to delete not found")) :=
  ⟨rfl, claim9_read_null_delete_throws sampleDb 2 rfl⟩

/-- Claim C7: for a request carrying a signature-valid, unexpired
token, the Access Control Gate rejects with Unauthorized when the token
subject no longer exists in the store, and otherwise resolves
\x7buserId, email\x7d from the token claim for the downstream handler. -/
theorem claim7_gate_handles_deleted_subject (db : Db) (now : Nat)
    (t : Token) (c : Claim) (hv : verify now t = .ok c) :
    (userFindOne db c.sub = none →
        gateAuthenticate db now t = .error (.unauthorized "Unauthorized"))
      ∧ (∀ p, userFindOne db c.sub = some p →
          gateAuthenticate db now t
            = .ok { userId := c.sub, email := c.email }) := by
  constructor
  · intro hn
    unfold gateAuthenticate
    rw [hv]
    dsimp only []
    unfold jwtStrategyValidate
    rw [hn]
  · intro p hp
    unfold gateAuthenticate
    rw [hv]
    dsimp only []
    unfold jwtStrategyValidate
    rw [hp]

theorem claim7_witness :
    verify 5 ghostToken = .ok ghostToken.claim
      ∧ userFindOne sampleDb ghostToken.claim.sub = none
      ∧ gateAuthenticate sampleDb 5 ghostToken
          = .error (.unauthorized "Unauthorized") :=
  ⟨rfl, rfl,
    (claim7_gate_handles_deleted_subject sampleDb 5 ghostToken
      ghostToken.claim rfl).1 rfl⟩

/-- Claim C10: Refresh resolves the user by the email claim embedded in
the token, so a verifying token whose embedded email matches no user's
current email fails with Unauthorized even while it is still the token
stored on the original user's row. -/
theorem claim10_refresh_resolves_by_email (db : Db) (now : Nat)
    (t : Token) (c : Claim) (hv : verify now t = .ok c)
    (hfe : findByEmail db c.email = none)
    (_hstored : ∃ u ∈ db.rows, u.refreshToken = some t) :
    refreshTokens db now t
      = .error (.unauthorized "Invalid refresh token") := by
  apply refreshTokens_of_body_err
  unfold refreshTokensBody
  rw [hv]
  dsimp only []
  rw [hfe]

theorem claim10_witness :
    verify 5 oldEmailToken = .ok oldEmailToken.claim
      ∧ findByEmail renamedDb oldEmailToken.claim.email = none
      ∧ refreshTokens renamedDb 5 oldEmailToken
          = .error (.unauthorized "Invalid refresh token") :=
  ⟨rfl, rfl,
    claim10_refresh_resolves_by_email renamedDb 5 oldEmailToken
      oldEmailToken.claim rfl rfl
      ⟨renamedUser, by simp [renamedDb], rfl⟩⟩

/-- Claim C3, counterexample: with the store's write path failing, the
store error raised while persisting the rotated refresh token inside
Refresh is swallowed by the catch-all and rewritten as Unauthorized
instead of propagating unmodified as the claim states. -/
theorem claim3_counterexample :
    refreshTokensBody sampleDbDown 5 sampleToken
        = .error (.storeError "store connection failure")
      ∧ refreshTokens sampleDbDown 5 sampleToken
          = .error (.unauthorized "Invalid refresh token") :=
  ⟨rfl, rfl⟩

/-- Claim C3 (amended): Refresh rewrites EVERY failure raised during
it, including store errors raised while persisting the rotated refresh
token, as Unauthorized; a Session Manager operation with no catch-all,
such as Logout, lets store failures propagate unmodified. -/
theorem claim3_refresh_catch_all (db : Db) (now uid : Nat) (t : Token)
    (e : Err) :
    (refreshTokens db now t = .error e →
        e = .unauthorized "Invalid refresh token")
      ∧ (db.updateFailure = true →
          logout db now uid
            = .error (.storeError "store connection failure")) := by
  constructor
  · exact refreshTokens_err_dest
  · intro hflag
    unfold logout updateRefreshToken prismaUpdate
    rw [hflag, if_pos rfl]

theorem claim3_witness :
    ((Err.unauthorized "Invalid refresh token")
        = .unauthorized "Invalid refresh token")
      ∧ logout sampleDbDown 7 1
          = .error (.storeError "store connection failure") :=
  ⟨(claim3_refresh_catch_all sampleDbDown 5 1 sampleToken
      (.unauthorized "Invalid refresh token")).1 rfl,
    (claim3_refresh_catch_all sampleDbDown 7 1 sampleToken
      (.unauthorized "Invalid refresh token")).2 rfl⟩

theorem setRefresh_id (now uid : Nat) (tok : Option Token) (u : UserRow) :
    (setRefresh now uid tok u).id = u.id := by
  unfold setRefresh
  exact updRow_id now uid (fun w => { w with refreshToken := tok })
    (fun _ => rfl) u

theorem setRefresh_email (now uid : Nat) (tok : Option Token) (u : UserRow) :
    (setRefresh now uid tok u).email = u.email := by
  unfold setRefresh
  exact updRow_email now uid (fun w => { w with refreshToken := tok })
    (fun _ => rfl) u

theorem updateRefreshToken_ok (db : Db) (now uid : Nat) (tok : Option Token)
    (hflag : db.updateFailure = false)
    (hm : (findById db uid).isSome = true) :
    updateRefreshToken db now uid tok
      = .ok { db with rows := db.rows.map (setRefresh now uid tok) } := by
  unfold updateRefreshToken setRefresh
  exact prismaUpdate_eq_ok db now uid _ hflag hm

theorem stored_after_update (db : Db) (now uid : Nat) (tok : Option Token)
    (hm : (findById db uid).isSome = true) :
    (findById { db with rows := db.rows.map (setRefresh now uid tok) }
        uid).map UserRow.refreshToken = some tok := by
  obtain ⟨w, hw⟩ := Option.isSome_iff_exists.mp hm
  have hmap := findById_map db (setRefresh now uid tok)
    (setRefresh_id now uid tok) uid
  rw [hmap, hw, Option.map_some', Option.map_some']
  unfold setRefresh
  rw [updRow_of_found hw]

/-- Claim C8: Login fails with Unauthorized exactly when no user exists
with the given email or the password fails verification against the
stored hash; otherwise it returns tokens the Token Verifier accepts and
persists the new refresh token onto the user's row. -/
theorem claim8_login (db : Db) (now : Nat) (dto : LoginDto)
    (hflag : db.updateFailure = false) :
    (loginRejects db dto = true →
        login db now dto = .error (.unauthorized "Invalid credentials"))
      ∧ (loginRejects db dto = false → loginSucceeds db now dto) := by
  constructor
  · intro hrej
    unfold loginRejects at hrej
    cases hfe : findByEmail db dto.email with
    | none =>
      have hv : validateUser db dto.email dto.password = none := by
        unfold validateUser
        rw [hfe]
      unfold login
      rw [hv]
    | some u =>
      rw [hfe] at hrej
      dsimp only [] at hrej
      have hcmp : bcryptCompare dto.password u.password = false := by
        simpa using hrej
      have hv : validateUser db dto.email dto.password = none := by
        unfold validateUser
        rw [hfe]
        dsimp only []
        rw [hcmp]
        rfl
      unfold login
      rw [hv]
  · intro hacc
    unfold loginRejects at hacc
    cases hfe : findByEmail db dto.email with
    | none => rw [hfe] at hacc; exact Bool.noConfusion hacc
    | some u =>
      rw [hfe] at hacc
      dsimp only [] at hacc
      have hcmp : bcryptCompare dto.password u.password = true := by
        simpa using hacc
      have hv : validateUser db dto.email dto.password = some u := by
        unfold validateUser
        rw [hfe]
        dsimp only []
        rw [hcmp]
        rfl
      have hmemu : u ∈ db.rows :=
        List.mem_of_find?_eq_some (show db.rows.find?
          (fun w => w.email == dto.email) = some u from hfe)
      have hmem := findById_isSome_of_mem hmemu
      have hupd := updateRefreshToken_ok db now u.id
        (some (sign { email := u.email, sub := u.id } refreshTtl now))
        hflag hmem
      refine ⟨{ access_token := sign { email := u.email, sub := u.id }
                  accessTtl now,
                refresh_token := sign { email := u.email, sub := u.id }
                  refreshTtl now,
                user := { id := u.id, email := u.email, name := u.name } },
              { db with rows := db.rows.map (setRefresh now u.id
                  (some (sign { email := u.email, sub := u.id }
                    refreshTtl now))) },
              ?_, ?_, ?_, ?_⟩
      · unfold login
        rw [hv]
        dsimp only []
        rw [hupd]
      · exact ⟨{ email := u.email, sub := u.id },
          verify_sign _ _ _ (by decide)⟩
      · exact ⟨{ email := u.email, sub := u.id },
          verify_sign _ _ _ (by decide)⟩
      · exact stored_after_update db now u.id _ hmem

theorem claim8_witness :
    sampleDb.updateFailure = false
      ∧ loginRejects sampleDb goodLogin = false
      ∧ loginSucceeds sampleDb 3 goodLogin :=
  ⟨rfl, rfl, (claim8_login sampleDb 3 goodLogin rfl).2 rfl⟩

/-- Claim C6: for an existing user id at a healthy store, Logout sets
the stored refreshToken to null unconditionally (whatever its prior
value), applying it twice yields the same store state as applying it
once, and a Refresh presented with the pre-logout token fails
afterwards. -/
theorem claim6_logout (db : Db) (now uid : Nat)
    (hflag : db.updateFailure = false)
    (hmem : (findById db uid).isSome = true) : logoutSpec db now uid := by
  have hupd := updateRefreshToken_ok db now uid none hflag hmem
  have hstored := stored_after_update db now uid none hmem
  refine ⟨{ db with rows := db.rows.map (setRefresh now uid none) },
    hupd, hstored, ?_, ?_⟩
  · have hmem2 : (findById
        { db with rows := db.rows.map (setRefresh now uid none) }
        uid).isSome = true := by
      cases hfind : findById
          { db with rows := db.rows.map (setRefresh now uid none) } uid with
      | none => rw [hfind] at hstored; exact Option.noConfusion hstored
      | some w => rfl
    have hupd2 := updateRefreshToken_ok
      { db with rows := db.rows.map (setRefresh now uid none) } now uid none
      hflag hmem2
    have hidem : (db.rows.map (setRefresh now uid none)).map
        (setRefresh now uid none) = db.rows.map (setRefresh now uid none) := by
      apply list_map_self
      intro a ha
      obtain ⟨b, hb, rfl⟩ := List.mem_map.mp ha
      unfold setRefresh updRow
      by_cases hbid : (b.id == uid) = true
      · rw [if_pos hbid]
        dsimp only []
        rw [if_pos hbid]
      · rw [if_neg hbid]
        dsimp only []
        rw [if_neg hbid]
    unfold logout
    rw [hupd2]
    dsimp only []
    rw [hidem]
  · intro t u now2 hfe huid hstored2
    cases hv2 : verify now2 t with
    | error e =>
      have hb : refreshTokensBody
          { db with rows := db.rows.map (setRefresh now uid none) } now2 t
          = .error e := by
        unfold refreshTokensBody
        rw [hv2]
      exact refreshTokens_of_body_err hb
    | ok c =>
      have hc : c = t.claim := (verify_ok_dest hv2).1
      subst hc
      have hmap := findByEmail_map db (setRefresh now uid none)
        (setRefresh_email now uid none) t.claim.email
      have hb : refreshTokensBody
          { db with rows := db.rows.map (setRefresh now uid none) } now2 t
          = .error (.unauthorized "Invalid refresh token") := by
        unfold refreshTokensBody
        rw [hv2]
        dsimp only []
        rw [hmap, hfe, Option.map_some']
        dsimp only []
        have hg : setRefresh now uid none u
            = { u with refreshToken := none, updatedAt := now } := by
          unfold setRefresh updRow
          rw [if_pos (by simp [huid])]
        have hne : (setRefresh now uid none u).refreshToken ≠ some t := by
          rw [hg]
          intro hh
          simp at hh
        rw [if_pos hne]
      exact refreshTokens_of_body_err hb

theorem claim6_witness :
    sampleDb.updateFailure = false
      ∧ (findById sampleDb 1).isSome = true
      ∧ logoutSpec sampleDb 9 1 :=
  ⟨rfl, rfl, claim6_logout sampleDb 9 1 rfl rfl⟩

/-- Claim C2: at a healthy store, Refresh fails with Unauthorized
exactly when the presented token fails verification or the user row
resolved from it does not store exactly the presented token; on success
it issues a new pair, overwrites the stored refreshToken, and the
pre-refresh token is rejected afterwards (single-use rotation). -/
theorem claim2_refresh (db : Db) (now : Nat) (t : Token)
    (hflag : db.updateFailure = false) :
    (refreshAccepted db now t = false →
        refreshTokens db now t
          = .error (.unauthorized "Invalid refresh token"))
      ∧ (refreshAccepted db now t = true → refreshRotates db now t) := by
  constructor
  · intro hna
    unfold refreshAccepted at hna
    cases hv : verify now t with
    | error e =>
      have hb : refreshTokensBody db now t = .error e := by
        unfold refreshTokensBody
        rw [hv]
      exact refreshTokens_of_body_err hb
    | ok c =>
      rw [hv] at hna
      dsimp only [] at hna
      cases hfe : findByEmail db c.email with
      | none =>
        have hb : refreshTokensBody db now t
            = .error (.unauthorized "Invalid refresh token") := by
          unfold refreshTokensBody
          rw [hv]
          dsimp only []
          rw [hfe]
        exact refreshTokens_of_body_err hb
      | some user =>
        rw [hfe] at hna
        dsimp only [] at hna
        have hne : user.refreshToken ≠ some t := by
          intro heq
          rw [heq] at hna
          simp at hna
        have hb : refreshTokensBody db now t
            = .error (.unauthorized "Invalid refresh token") := by
          unfold refreshTokensBody
          rw [hv]
          dsimp only []
          rw [hfe]
          dsimp only []
          rw [if_pos hne]
        exact refreshTokens_of_body_err hb
  · intro hacc
    unfold refreshAccepted at hacc
    cases hv : verify now t with
    | error e => rw [hv] at hacc; exact Bool.noConfusion hacc
    | ok c =>
      have hc : c = t.claim := (verify_ok_dest hv).1
      subst hc
      rw [hv] at hacc
      dsimp only [] at hacc
      cases hfe : findByEmail db t.claim.email with
      | none => rw [hfe] at hacc; exact Bool.noConfusion hacc
      | some user =>
        rw [hfe] at hacc
        dsimp only [] at hacc
        have heq : user.refreshToken = some t := by simpa using hacc
        have hmemu : user ∈ db.rows :=
          List.mem_of_find?_eq_some (show db.rows.find?
            (fun w => w.email == t.claim.email) = some user from hfe)
        have hmem := findById_isSome_of_mem hmemu
        have hupd := updateRefreshToken_ok db now user.id
          (some (sign { email := user.email, sub := user.id } refreshTtl now))
          hflag hmem
        have hbody : refreshTokensBody db now t
            = .ok ({ access_token := sign
                      { email := user.email, sub := user.id } accessTtl now,
                     refresh_token := sign
                      { email := user.email, sub := user.id } refreshTtl now },
                   { db with rows := db.rows.map (setRefresh now user.id
                      (some (sign { email := user.email, sub := user.id }
                        refreshTtl now))) }) := by
          unfold refreshTokensBody
          rw [hv]
          dsimp only []
          rw [hfe]
          dsimp only []
          rw [if_neg (fun hne => hne heq)]
          rw [hupd]
        refine ⟨_, _, refreshTokens_of_body_ok hbody, ?_, ?_⟩
        · intro u' hu'
          rw [hfe] at hu'
          have huu : user = u' := Option.some.inj hu'
          subst huu
          exact stored_after_update db now user.id _ hmem
        · intro hiat now2
          cases hv2 : verify now2 t with
          | error e =>
            have hb : refreshTokensBody
                { db with rows := db.rows.map (setRefresh now user.id
                    (some (sign { email := user.email, sub := user.id }
                      refreshTtl now))) } now2 t = .error e := by
              unfold refreshTokensBody
              rw [hv2]
            exact refreshTokens_of_body_err hb
          | ok c2 =>
            have hc2 : c2 = t.claim := (verify_ok_dest hv2).1
            subst hc2
            have hmap := findByEmail_map db (setRefresh now user.id
                (some (sign { email := user.email, sub := user.id }
                  refreshTtl now)))
              (setRefresh_email now user.id _) t.claim.email
            have hb : refreshTokensBody
                { db with rows := db.rows.map (setRefresh now user.id
                    (some (sign { email := user.email, sub := user.id }
                      refreshTtl now))) } now2 t
                = .error (.unauthorized "Invalid refresh token") := by
              unfold refreshTokensBody
              rw [hv2]
              dsimp only []
              rw [hmap, hfe, Option.map_some']
              dsimp only []
              have hg : setRefresh now user.id
                  (some (sign { email := user.email, sub := user.id }
                    refreshTtl now)) user
                  = { user with
                      refreshToken := some (sign { email := user.email, sub := user.id } refreshTtl now),
                      updatedAt := now } := by
                unfold setRefresh updRow
                rw [if_pos (by simp)]
              have hne2 : (setRefresh now user.id
                  (some (sign { email := user.email, sub := user.id }
                    refreshTtl now)) user).refreshToken ≠ some t := by
                rw [hg]
                intro hh
                have h3 := Option.some.inj hh
                have h4 := congrArg Token.iat h3
                exact hiat (by simpa using h4.symm)
              rw [if_pos hne2]
            exact refreshTokens_of_body_err hb

theorem claim2_witness :
    sampleDb.updateFailure = false
      ∧ refreshAccepted sampleDb 5 sampleToken = true
      ∧ refreshRotates sampleDb 5 sampleToken :=
  ⟨rfl, rfl, (claim2_refresh sampleDb 5 sampleToken rfl).2 rfl⟩
